import Mathlib

/-!
Verification of the remote-execution dispatch and sandboxed-run pipeline:
the SQS-based request queue (push/pop, routing by execution triple), the
worker loop, and the local execution environment (cached-package retrieval,
execution-option assembly, subprocess result normalization).

JavaScript/TypeScript semantics are embedded shallowly:
- exceptions and rejected promises are `Except JsError`;
- a string-keyed JS object observed through property lookup is an
  association list `EnvMap` (`objGet` is property read, `objSet` is property
  write, `objSpread` is the object-literal spread `\x7b ...a, ...b \x7d`);
- platform and library functions whose sources are not part of the
  repository snapshot (path utilities, `getHash`, `JSON.stringify`,
  `utils.splitArguments`, `utils.parseOutput`, ...) are abstract parameters
  bundled in `PlatformFns`.
-/

set_option autoImplicit false

deriving instance DecidableEq for Except

/-- A JS string-keyed object holding string values, observed through property
lookup. Insertion order is irrelevant to every observation made here. -/
abbrev EnvMap := List (String × String)

/-- JS property read `m[k]`: the binding for `k`, if any. -/
def objGet : EnvMap → String → Option String
  | [], _ => none
  | (k, v) :: rest, key => if k = key then some v else objGet rest key

/-- JS property write `m[k] = v`: lookup-equivalent model (the new binding
shadows and removes any previous binding for `k`). -/
def objSet (m : EnvMap) (key v : String) : EnvMap :=
  (key, v) :: m.filter (fun kv => kv.1 != key)

/-- JS object-literal spread `\x7b ...base, ...extra \x7d`: every entry of
`extra` is written over `base`, later entries last. -/
def objSpread (base extra : EnvMap) : EnvMap :=
  extra.foldl (fun m kv => objSet m kv.1 kv.2) base

/-- A thrown JS error / rejected promise value. `message` is the Error
message; `code`, `stderr`, `stdout` model the extra properties that
subprocess errors carry (absent on a plain `Error`). -/
structure JsError where
  message : String := ""
  code : Option Int := none
  stderr : Option String := none
  stdout : Option String := none
deriving DecidableEq, Repr

/-- Behavior of `JSON.stringify` applied to a JS `Error` object: the `message` and
`stack` properties of an `Error` are non-enumerable, so serialization
produces the empty object `"\x7b\x7d"` whatever the message was. -/
def jsonStringifyError (_ : JsError) : String := "\x7b\x7d"

/-- One line of captured program output (`utils.parseOutput` line record). -/
structure ResultLine where
  text : String
deriving DecidableEq, Repr

/-- The normalized result of one subprocess execution. -/
structure BasicExecutionResult where
  code : Int := 0
  timedOut : Bool := false
  stdout : List ResultLine := []
  stderr : List ResultLine := []
  processExecutionResultTime : Int := 0
deriving DecidableEq, Repr

/-- A `name`/`value` pair carried by an `env` runtime tool. -/
structure NameValuePair where
  name : String
  value : String
deriving DecidableEq, Repr

/-- The recognized runtime-tool tags (`RuntimeToolType` in the source). -/
inductive RuntimeToolType where
  | env
  | heaptrack
deriving DecidableEq, BEq, Repr

/-- One configured runtime tool: a tag plus its options. -/
structure RuntimeTool where
  name : RuntimeToolType
  options : List NameValuePair
deriving DecidableEq, Repr

/-- Model of `ExecutionParams.args`: either a single string to be tokenized, an
argument list, or absent (`undefined`). -/
inductive ArgsVal where
  | strArg (s : String)
  | listArg (l : List String)
  | noArgs
deriving DecidableEq, Repr

/-- Parameters of one execution request. -/
structure ExecutionParams where
  args : ArgsVal := ArgsVal.noArgs
  stdin : String := ""
  runtimeTools : Option (List RuntimeTool) := none
deriving DecidableEq, Repr

/-- A queued remote-execution request. -/
structure RemoteExecutionMessage where
  guid : String
  hash : String
  params : ExecutionParams
deriving DecidableEq, Repr

/-- Modelled from the spec: the platform and utility functions used by the
pipeline whose implementations are outside the repository snapshot —
`path.basename`, `utils.maskRootdir`, `path.join`, `path.delimiter`,
`utils.splitArguments`, `utils.getHash`, `JSON.stringify` of a message,
`utils.parseOutput`, `utils.processExecutionResult`,
`utils.getEmptyExecutionResult`. They are opaque parameters; nothing below
depends on their behavior beyond their being functions. -/
structure PlatformFns where
  basename : String → String
  maskRootdir : String → String
  pathJoin : String → String → String
  delimiter : String
  splitArguments : String → List String
  getHash : String → String
  stringifyMessage : RemoteExecutionMessage → String
  parseOutput : String → List ResultLine
  processExecutionResult : JsError → BasicExecutionResult
  getEmptyExecutionResult : BasicExecutionResult

/-- The routing triple: instruction set, operating system, specialty. -/
structure ExecutionTriple where
  instructionSet : String
  operatingSystem : String
  specialty : String
deriving DecidableEq, Repr

/-- Modelled from the spec: `ExecutionTriple.toString` (the class lives in
`execution-triple.js`, which is not part of the snapshot) — a deterministic,
order-stable join of the three fields. -/
def ExecutionTriple.toString (t : ExecutionTriple) : String :=
  t.instructionSet ++ "-" ++ t.operatingSystem ++ "-" ++ t.specialty

/-- Source `SqsExecuteQueueBase.getSqsQueueUrl`: queue base url, a dash, the
triple's routing string, and the fixed `.fifo` channel-type suffix. -/
def getSqsQueueUrl (queueUrl : String) (triple : ExecutionTriple) : String :=
  queueUrl ++ "-" ++ triple.toString ++ ".fifo"

/-- The argument record of one `sqs.sendMessage` call. -/
structure SendMessageCall where
  queueUrl : String
  messageBody : String
  messageGroupId : String
  messageDeduplicationId : String
deriving DecidableEq, Repr

/-- Source `SqsExecuteRequester.push`: serialize the message, submit it with the
fixed group id `"default"` and a deduplication id that hashes the
serialized body. -/
def push (pf : PlatformFns) (queueUrl : String) (triple : ExecutionTriple)
    (message : RemoteExecutionMessage) : SendMessageCall :=
  let body := pf.stringifyMessage message
  { queueUrl := getSqsQueueUrl queueUrl triple
    messageBody := body
    messageGroupId := "default"
    messageDeduplicationId := pf.getHash body }

/-- One message as returned by `sqs.receiveMessage`. -/
structure QueuedMessage where
  body : Option String
  receiptHandle : Option String
deriving DecidableEq, Repr

/-- What one `SqsWorkerMode.pop` call does: its returned value (or the
error it raises) and whether it deleted (acknowledged) the message. -/
structure PopOutcome where
  result : Except JsError (Option RemoteExecutionMessage)
  deletedMessage : Bool
deriving DecidableEq, Repr

/-- Source `SqsWorkerMode.pop`. `receivedMessages` is `Messages` from the broker
(`none` models an absent field); `jsonParse` is the platform `JSON.parse`
specialized to the message type. The source wraps the body handling in
`try ... finally`: the `finally` deletes the message whenever it has a
receipt handle, and — there being no `catch` — a `JSON.parse` exception
then propagates to the caller. -/
def pop (receivedMessages : Option (List QueuedMessage))
    (jsonParse : String → Except JsError RemoteExecutionMessage) : PopOutcome :=
  match receivedMessages with
  | some [queuedMessage] =>
    let deleted := queuedMessage.receiptHandle.isSome
    match queuedMessage.body with
    | some json =>
      match jsonParse json with
      | .ok msg => ⟨.ok (some msg), deleted⟩
      | .error e => ⟨.error e, deleted⟩
    | none => ⟨.ok none, deleted⟩
  | _ => ⟨.ok none, false⟩

/-- The steady-state repoll delay: `setTimeout(doExecutionWork, 500)`. -/
def steadyStatePollMs : Nat := 500

/-- The startup delay: `setTimeout(doExecutionWork, 1500)`. -/
def initialPollDelayMs : Nat := 1500

/-- How one run of `doExecutionWork` ends: either it reached its trailing
`setTimeout(doExecutionWork, delayMs)` and the loop continues, or an
exception escaped the async function first and no next poll is scheduled. -/
inductive WorkerIterationOutcome where
  | scheduledNext (delayMs : Nat)
  | haltedWith (e : JsError)
deriving DecidableEq, Repr

/-- One iteration of the `doExecutionWork` loop set up by
`startExecutionWorkerThread`. `popResult` is what `queue.pop()` returned
(or raised); `processChain` is the fetch/unpack/execute/notify chain run
for a message with a truthy guid. The function body contains no
`try`/`catch`, so any error from `pop` or from the chain escapes before
the trailing `setTimeout` runs. -/
def doExecutionWorkOnce (popResult : Except JsError (Option RemoteExecutionMessage))
    (processChain : RemoteExecutionMessage → Except JsError Unit) : WorkerIterationOutcome :=
  match popResult with
  | .error e => .haltedWith e
  | .ok none => .scheduledNext steadyStatePollMs
  | .ok (some msg) =>
    if msg.guid ≠ "" then
      match processChain msg with
      | .ok _ => .scheduledNext steadyStatePollMs
      | .error e => .haltedWith e
    else .scheduledNext steadyStatePollMs

/-- The `defaultExecOptions` record inside a bundle's metadata. -/
structure DefaultExecOptionsRec where
  env : Option EnvMap := none
deriving DecidableEq, Repr

/-- The parsed `compilation-result.json` of a cached package. -/
structure MetaJson where
  inputFilename : Option String := none
  executableFilename : Option String := none
  defaultExecOptions : Option DefaultExecOptionsRec := none
  preparedLdPaths : Option (List String) := none
deriving DecidableEq, Repr

/-- The build result assembled by `loadPackageWithExecutable`. -/
structure BuildResult where
  code : Int
  inputFilename : String
  dirPath : String
  executableFilename : String
  defaultExecOptions : Option DefaultExecOptionsRec
  preparedLdPaths : Option (List String)
  packageDownloadAndUnzipTime : String
deriving DecidableEq, Repr

/-- The mutable fields of a `LocalExecutionEnvironment` instance. -/
structure LocalEnvState where
  dirPath : String
  buildResult : Option BuildResult
deriving DecidableEq, Repr

/-- The state right after the constructor ran: `this.dirPath = 'not
initialized'`, no build result yet. -/
def initialLocalEnvState : LocalEnvState :=
  { dirPath := "not initialized", buildResult := none }

/-- The configuration fields read in the constructor. -/
structure LocalEnvConfig where
  timeoutMs : Int
  maxExecOutputSize : Int
  useSanitizerEnvHints : Bool
  sandboxType : String
deriving DecidableEq, Repr

/-- The constructor's configuration assembly: `binaryExecTimeoutMs`
(default 2000), `max-executable-output-size` (default 32768),
`useSanitizerEnvHints` set unconditionally to `true`, and the execution
sandbox type (default `none`). -/
def mkLocalEnvConfig (binaryExecTimeoutMs maxOutputSize : Int) : LocalEnvConfig :=
  { timeoutMs := binaryExecTimeoutMs
    maxExecOutputSize := maxOutputSize
    useSanitizerEnvHints := true
    sandboxType := "none" }

/-- Source `LocalExecutionEnvironment.executableGet`: `none` on a cache miss,
otherwise the path the raw bytes were written to. -/
def executableGet (hit : Bool) (hash destinationFolder : String) : Option String :=
  if hit then some (destinationFolder ++ "/" ++ hash) else none

/-- The message of the error thrown on a cache miss. -/
def cacheMissText : String := "Tried to get executable from cache, but got a cache miss"

/-- The message of the error the surrounding `catch` rethrows. -/
def cacheWrapText (s : String) : String :=
  "Tried to get executable from cache, but got an error: " ++ s

/-- Source `LocalExecutionEnvironment.loadPackageWithExecutable`. `hit` is whether
the cache lookup hit; `metaParse` is the result of `JSON.parse` on the
`compilation-result.json` read from the unpacked package (`.error` when the
metadata is malformed); `elapsed` is the measured download+unpack time.
Unpack and file-read failures would flow into the same `catch` as the two
error paths modelled here; they are not separately modelled. The whole body
sits in a `try` whose `catch` rethrows
`Error('Tried to get executable from cache, but got an error: ' +
JSON.stringify(err))` — including the cache-miss error thrown inside the
same `try`. -/
def loadPackageWithExecutable (pf : PlatformFns) (hit : Bool) (hash : String)
    (metaParse : Except JsError MetaJson) (elapsed : String) (dirPath : String) :
    Except JsError BuildResult :=
  let tryBody : Except JsError BuildResult :=
    match executableGet hit hash dirPath with
    | some _outputFilename =>
      match metaParse with
      | .ok buildResults =>
        let inputFilename :=
          match buildResults.inputFilename with
          | some f => if f ≠ "" then pf.pathJoin dirPath (pf.basename f) else ""
          | none => ""
        let executableFilename :=
          match buildResults.executableFilename with
          | some f => if f ≠ "" then pf.pathJoin dirPath (pf.maskRootdir f) else ""
          | none => ""
        .ok { code := 0
              inputFilename := inputFilename
              dirPath := dirPath
              executableFilename := executableFilename
              defaultExecOptions := buildResults.defaultExecOptions
              preparedLdPaths := buildResults.preparedLdPaths
              packageDownloadAndUnzipTime := elapsed }
      | .error e => .error e
    | none => .error { message := cacheMissText }
  match tryBody with
  | .ok r => .ok r
  | .error e => .error { message := cacheWrapText (jsonStringifyError e) }

/-- Source `LocalExecutionEnvironment.downloadExecutablePackage`: make a fresh
working directory (`newDir`), then set `this.buildResult` from
`loadPackageWithExecutable`; an error from it propagates and leaves
`buildResult` unset. -/
def downloadExecutablePackage (pf : PlatformFns) (hit : Bool) (hash : String)
    (metaParse : Except JsError MetaJson) (elapsed : String)
    (st : LocalEnvState) (newDir : String) : Except JsError LocalEnvState :=
  match loadPackageWithExecutable pf hit hash metaParse elapsed newDir with
  | .ok br => .ok { st with dirPath := newDir, buildResult := some br }
  | .error e => .error e

/-- The `ExecutionOptions` record handed to the process launcher. Fields
the source leaves unset stay `none`. -/
structure ExecutionOptions where
  env : EnvMap := []
  timeoutMs : Option Int := none
  maxOutput : Option Int := none
  ldPath : Option (List String) := none
  input : Option String := none
  customCwd : Option String := none
  appHome : Option String := none
deriving DecidableEq, Repr

/-- The truthiness test `buildResult && buildResult.defaultExecOptions &&
buildResult.defaultExecOptions.env && buildResult.defaultExecOptions.env.PATH`
(an empty string is falsy): the bundle's `PATH` hint, when present. -/
def bundlePathHint (buildResult : Option BuildResult) : Option String :=
  match buildResult with
  | some br =>
    match br.defaultExecOptions with
    | some deo =>
      match deo.env with
      | some e =>
        match objGet e "PATH" with
        | some p => if p ≠ "" then some p else none
        | none => none
      | none => none
    | none => none
  | none => none

/-- Source `LocalExecutionEnvironment.getDefaultExecOptions`. The runtime-tool
loop in the source reads `env[(opt.name = opt.value)];` — an expression
statement that assigns `opt.value` to `opt.name` (mutating the option
object) and then reads `env` at key `opt.value`, discarding the value; it
never writes to `env`, so the fold below returns the environment
unchanged. Afterwards the bundle's `PATH` hint is appended (with the
platform delimiter) to `env.PATH`, which is still the initial empty
string, and `preparedLdPaths` is copied when present. -/
def getDefaultExecOptions (pf : PlatformFns) (buildResult : Option BuildResult)
    (params : ExecutionParams) : ExecutionOptions :=
  let env0 : EnvMap := objSet [] "PATH" ""
  let env1 : EnvMap :=
    match params.runtimeTools with
    | some tools =>
      match tools.find? (fun tool => tool.name == RuntimeToolType.env) with
      | some runtimeEnv => runtimeEnv.options.foldl (fun e _opt => e) env0
      | none => env0
    | none => env0
  let env2 : EnvMap :=
    match bundlePathHint buildResult with
    | some bundlePath =>
      let cur := (objGet env1 "PATH").getD ""
      if cur.length > 0 then objSet env1 "PATH" (cur ++ pf.delimiter ++ bundlePath)
      else objSet env1 "PATH" bundlePath
    | none => env1
  let base : ExecutionOptions := { env := env2 }
  match buildResult with
  | some br =>
    match br.preparedLdPaths with
    | some lds => { base with ldPath := some lds }
    | none => base
  | none => base

/-- The expression `typeof params.args === 'string' ? utils.splitArguments(params.args) :
params.args || []` (a present array, even empty, is truthy). -/
def effectiveArgs (pf : PlatformFns) (params : ExecutionParams) : List String :=
  match params.args with
  | .strArg s => pf.splitArguments s
  | .listArg l => l
  | .noArgs => []

/-- The argument record of one `exec.sandbox` call. -/
structure SandboxCall where
  filepath : String
  args : List String
  execOptions : ExecutionOptions
deriving DecidableEq, Repr

/-- The error thrown by `assert(this.buildResult)`. -/
def assertionFailure : JsError := { message := "Assertion failed" }

/-- Source `LocalExecutionEnvironment.execute`: assert that a build result is
present, then hand the recorded executable, the effective arguments and
`getDefaultExecOptions(params)` to `exec.sandbox`. -/
def execute (pf : PlatformFns) (st : LocalEnvState) (params : ExecutionParams) :
    Except JsError SandboxCall :=
  match st.buildResult with
  | none => .error assertionFailure
  | some br =>
    .ok { filepath := br.executableFilename
          args := effectiveArgs pf params
          execOptions := getDefaultExecOptions pf (some br) params }

/-- The parameters `execBinary` receives. -/
structure ExecutableExecutionOptions where
  env : EnvMap := []
  args : List String := []
  stdin : String := ""
  ldPath : List String := []
  runtimeTools : Option (List RuntimeTool) := none
deriving DecidableEq, Repr

/-- The baseline diagnostic hints spread first into the environment when
`useSanitizerEnvHints` is set. -/
def sanitizerEnvHints : EnvMap :=
  [("ASAN_OPTIONS", "color=always"), ("UBSAN_OPTIONS", "color=always"),
   ("MSAN_OPTIONS", "color=always"), ("LSAN_OPTIONS", "color=always")]

/-- The `ExecutionOptions` record assembled inside `execBinary`'s `try`
block: output cap, timeout, library path, stdin, working directory, and the
environment — baseline sanitizer hints first, then the caller's entries
spread over them. -/
def execBinaryExecOptions (cfg : LocalEnvConfig)
    (executeParameters : ExecutableExecutionOptions) (homeDir : String) : ExecutionOptions :=
  let base : ExecutionOptions :=
    { env := []
      maxOutput := some cfg.maxExecOutputSize
      timeoutMs := some cfg.timeoutMs
      ldPath := some executeParameters.ldPath
      input := some executeParameters.stdin
      customCwd := some homeDir
      appHome := some homeDir }
  if cfg.useSanitizerEnvHints then
    { base with env := objSpread sanitizerEnvHints executeParameters.env }
  else
    { base with env := objSpread [] executeParameters.env }

/-- JS truthiness of a possibly-absent number (`undefined` and `0` are
falsy). -/
def jsTruthyOptInt : Option Int → Bool
  | none => false
  | some n => n != 0

/-- JS truthiness of a possibly-absent string (`undefined` and `''` are
falsy). -/
def jsTruthyOptStr : Option String → Bool
  | none => false
  | some s => s != ""

/-- The `catch (err)` handler of `execBinary` (source lines 727-738): an
error carrying a truthy `code` and `stderr` is converted through
`utils.processExecutionResult`; otherwise an empty result is filled with
whatever partial output the error carries and `code = -1` when `err.code`
is `undefined`. -/
def execBinaryCatchHandler (pf : PlatformFns) (err : JsError) : BasicExecutionResult :=
  if jsTruthyOptInt err.code && jsTruthyOptStr err.stderr then
    pf.processExecutionResult err
  else
    { pf.getEmptyExecutionResult with
      stdout := match err.stdout with | some s => pf.parseOutput s | none => []
      stderr := match err.stderr with | some s => pf.parseOutput s | none => []
      code := match err.code with | none => -1 | some c => c }

/-- Source `LocalExecutionEnvironment.execBinary`. The `try` block assembles
`execBinaryExecOptions` (pure — it cannot throw here) and then ends with
`return this.execBinaryMaybeWrapped(...)` WITHOUT `await`: in an async
function, returning a promise directly does not route its rejection
through the enclosing `try`/`catch` (only `return await` would), so a
rejection of the inner call — `execBinaryMaybeWrappedCall` here — is the
rejection of `execBinary` itself and `execBinaryCatchHandler` never sees
it. -/
def execBinary (cfg : LocalEnvConfig)
    (execBinaryMaybeWrappedCall : ExecutionOptions → Except JsError BasicExecutionResult)
    (executeParameters : ExecutableExecutionOptions) (homeDir : String) :
    Except JsError BasicExecutionResult :=
  execBinaryMaybeWrappedCall (execBinaryExecOptions cfg executeParameters homeDir)

/-- The fetch/unpack/execute/notify chain run by `doExecutionWork` for one
message, threaded through the `LocalExecutionEnvironment` model. The
`EventsWsSender` send/close calls are modelled as succeeding; an error in
them would escape `doExecutionWork` the same way. -/
def processChainWith (pf : PlatformFns) (hit : Bool)
    (metaParse : Except JsError MetaJson) (elapsed : String) (newDir : String)
    (st : LocalEnvState) (m : RemoteExecutionMessage) : Except JsError Unit := do
  let st' ← downloadExecutablePackage pf hit m.hash metaParse elapsed st newDir
  let _ ← execute pf st' m.params
  pure ()

/-- Whether a string contains no dash (the separator used by the routing
string). -/
def dashFree (s : String) : Bool := s.data.all (fun c => c != '-')

/-- Whether all three fields of a triple are dash-free — the "realistic
field values" under which distinct triples must route to distinct queues. -/
def tripleDashFree (t : ExecutionTriple) : Bool :=
  dashFree t.instructionSet && dashFree t.operatingSystem && dashFree t.specialty

/-- A concrete instantiation of the abstract platform functions, used only
to evaluate the model at specific inputs. -/
def pf0 : PlatformFns :=
  { basename := fun s => s
    maskRootdir := fun s => s
    pathJoin := fun a b => a ++ "/" ++ b
    delimiter := ":"
    splitArguments := fun _ => []
    getHash := fun s => s
    stringifyMessage := fun m => m.guid ++ "|" ++ m.hash
    parseOutput := fun s => [{ text := s }]
    processExecutionResult := fun err => { code := err.code.getD (-1) }
    getEmptyExecutionResult := {} }

/-- Concrete execution parameters: `args = ["--version"]`. -/
def params1 : ExecutionParams := { args := ArgsVal.listArg ["--version"] }

/-- A concrete queued request. -/
def msg1 : RemoteExecutionMessage := { guid := "g1", hash := "abc123", params := params1 }

/-- Concrete well-formed package metadata. -/
def meta0 : MetaJson :=
  { inputFilename := some "/app/example.cpp"
    executableFilename := some "/app/output"
    defaultExecOptions := some { env := some [("PATH", "/opt/bin")] }
    preparedLdPaths := some ["/opt/lib"] }

/-- The build result `loadPackageWithExecutable pf0 true "abc123" (.ok
meta0) "12" "/tmp/ce-1"` produces. -/
def br1 : BuildResult :=
  { code := 0
    inputFilename := "/tmp/ce-1//app/example.cpp"
    dirPath := "/tmp/ce-1"
    executableFilename := "/tmp/ce-1//app/output"
    defaultExecOptions := some { env := some [("PATH", "/opt/bin")] }
    preparedLdPaths := some ["/opt/lib"]
    packageDownloadAndUnzipTime := "12" }

/-- The environment state after a successful package download of `br1`. -/
def st1 : LocalEnvState := { dirPath := "/tmp/ce-1", buildResult := some br1 }

/-- The default configuration: 2000 ms timeout, 32768-byte output cap. -/
def cfg0 : LocalEnvConfig := mkLocalEnvConfig 2000 32768

/-- A queued message whose body is the malformed JSON text `"\x7b"`. -/
def malformedBodyMessage : QueuedMessage :=
  { body := some "\x7b", receiptHandle := some "rh-1" }

/-- The platform `JSON.parse` behavior on the malformed body: it throws a
`SyntaxError`. -/
def jsonParseFail : String → Except JsError RemoteExecutionMessage :=
  fun _ => .error { message := "Unexpected end of JSON input" }

/-- Execution parameters carrying an `env` runtime tool with two
name/value pairs, one of them a caller `PATH`. -/
def params5 : ExecutionParams :=
  { args := ArgsVal.noArgs
    stdin := ""
    runtimeTools := some [{ name := RuntimeToolType.env
                            options := [{ name := "FOO", value := "bar" },
                                        { name := "PATH", value := "/custom/bin" }] }] }

/-- A subprocess launch error of exactly the shape the catch handler and
the spec expect to convert: truthy `code` and `stderr`. -/
def launchError : JsError :=
  { message := "spawn ENOENT"
    code := some 127
    stderr := some "execvp: No such file or directory"
    stdout := none }

/-- Plain executable execution options with no env overrides. -/
def ep6 : ExecutableExecutionOptions :=
  { env := [], args := ["--version"], stdin := "", ldPath := [], runtimeTools := none }

/-- Executable execution options whose caller env collides with a baseline
sanitizer hint. -/
def ep7 : ExecutableExecutionOptions :=
  { env := [("ASAN_OPTIONS", "color=never")], args := [], stdin := "", ldPath := [], runtimeTools := none }

/-- A concrete triple. -/
def tripleA : ExecutionTriple :=
  { instructionSet := "x86_64", operatingSystem := "linux", specialty := "default" }

/-- A concrete triple differing from `tripleA` in one field. -/
def tripleB : ExecutionTriple :=
  { instructionSet := "aarch64", operatingSystem := "linux", specialty := "default" }

theorem stringDataInj {a b : String} (h : a.data = b.data) : a = b := by
  cases a
  cases b
  exact congrArg String.mk h

theorem stringDataAppend (a b : String) : (a ++ b).data = a.data ++ b.data := by
  cases a
  cases b
  rfl

theorem dashData : "-".data = ['-'] := rfl

theorem objGet_objSet_self (m : EnvMap) (k v : String) : objGet (objSet m k v) k = some v := by
  simp [objSet, objGet]

theorem objGet_filter_ne (m : EnvMap) (k key : String) (h : key ≠ k) :
    objGet (m.filter (fun kv => kv.1 != k)) key = objGet m key := by
  induction m with
  | nil => rfl
  | cons kv rest ih =>
    obtain ⟨a, b⟩ := kv
    by_cases hk : a = k
    · subst hk
      have : a ≠ key := fun hh => h (hh ▸ rfl)
      simp [List.filter_cons, objGet, this, ih]
    · by_cases hkey : a = key
      · subst hkey
        simp [List.filter_cons, hk, objGet]
      · simp [List.filter_cons, hk, objGet, hkey, ih]

theorem objGet_objSet_ne (m : EnvMap) (k v key : String) (h : key ≠ k) :
    objGet (objSet m k v) key = objGet m key := by
  have hne : k ≠ key := fun hh => h hh.symm
  simp [objSet, objGet, hne]
  exact objGet_filter_ne m k key h

theorem objGet_none_of_not_mem (m : EnvMap) (key : String)
    (h : key ∉ m.map Prod.fst) : objGet m key = none := by
  induction m with
  | nil => rfl
  | cons kv rest ih =>
    obtain ⟨a, b⟩ := kv
    rw [List.map_cons] at h
    have ha : a ≠ key := fun hh => h (hh ▸ List.mem_cons_self a _)
    have hr : key ∉ rest.map Prod.fst := fun hm => h (List.mem_cons_of_mem a hm)
    simp [objGet, ha, ih hr]

theorem objGet_objSpread : ∀ (extra base : EnvMap),
    (extra.map Prod.fst).Nodup → ∀ key,
    objGet (objSpread base extra) key =
      match objGet extra key with
      | some v => some v
      | none => objGet base key := by
  intro extra
  induction extra with
  | nil => intro base _ key; simp [objSpread, objGet]
  | cons kv rest ih =>
    intro base hN key
    obtain ⟨a, b⟩ := kv
    rw [List.map_cons] at hN
    have hN' := List.nodup_cons.mp hN
    have hstep : objSpread base ((a, b) :: rest) = objSpread (objSet base a b) rest := rfl
    rw [hstep, ih (objSet base a b) hN'.2 key]
    by_cases hk : key = a
    · subst hk
      have hnone : objGet rest key = none :=
        objGet_none_of_not_mem rest key hN'.1
      simp [hnone, objGet, objGet_objSet_self]
    · have ha : a ≠ key := fun hh => hk hh.symm
      cases hrk : objGet rest key with
      | some v => simp [objGet, ha, hrk]
      | none =>
        simp [objGet, ha, hrk, objGet_objSet_ne base a b key hk,
          objGet_filter_ne base a key hk]

theorem sepChainInj (sep : Char) :
    ∀ (a b r s : List Char), sep ∉ a → sep ∉ b →
      a ++ sep :: r = b ++ sep :: s → a = b ∧ r = s := by
  intro a
  induction a with
  | nil =>
    intro b r s _ hb h
    cases b with
    | nil => simpa using h
    | cons c bs =>
      simp at h
      exact absurd (by rw [h.1]; exact List.mem_cons_self c bs) hb
  | cons c as ih =>
    intro b r s ha hb h
    cases b with
    | nil =>
      simp at h
      exact absurd (by rw [← h.1]; exact List.mem_cons_self c as) ha
    | cons d bs =>
      simp at h
      have ha' : sep ∉ as := fun hm => ha (List.mem_cons_of_mem c hm)
      have hb' : sep ∉ bs := fun hm => hb (List.mem_cons_of_mem d hm)
      obtain ⟨hab, hrs⟩ := ih bs r s ha' hb' h.2
      exact ⟨by rw [h.1, hab], hrs⟩

theorem dashFree_not_mem {s : String} (h : dashFree s = true) : ('-' : Char) ∉ s.data := by
  intro hm
  have h2 := List.all_eq_true.mp h _ hm
  simp at h2

theorem getSqsQueueUrl_data (q : String) (t : ExecutionTriple) :
    (getSqsQueueUrl q t).data =
      q.data ++ '-' :: (t.instructionSet.data ++ '-' ::
        (t.operatingSystem.data ++ '-' :: (t.specialty.data ++ ".fifo".data))) := by
  simp [getSqsQueueUrl, ExecutionTriple.toString, stringDataAppend, dashData,
    List.append_assoc]

/-- Claim C8: `push` serializes the message body deterministically and
sets the deduplication key to a deterministic hash of that serialized body
with the fixed message group id `"default"`, so two pushes of
byte-identical message bodies — whatever their triples — produce identical
deduplication keys. -/
theorem pushDedupDeterministic (pf : PlatformFns) (queueUrl : String)
    (t1 t2 : ExecutionTriple) (m1 m2 : RemoteExecutionMessage)
    (h : pf.stringifyMessage m1 = pf.stringifyMessage m2) :
    (push pf queueUrl t1 m1).messageDeduplicationId =
      (push pf queueUrl t2 m2).messageDeduplicationId ∧
    (push pf queueUrl t1 m1).messageGroupId = "default" ∧
    (push pf queueUrl t1 m1).messageDeduplicationId =
      pf.getHash (pf.stringifyMessage m1) := by
  refine ⟨?_, rfl, rfl⟩
  simp [push, h]

/-- Witness for C8: two pushes of the same message to different triples
yield the same deduplication key. -/
theorem pushDedupDeterministicWitness :
    (push pf0 "queue" tripleA msg1).messageDeduplicationId =
      (push pf0 "queue" tripleB msg1).messageDeduplicationId ∧
    (push pf0 "queue" tripleA msg1).messageGroupId = "default" ∧
    (push pf0 "queue" tripleA msg1).messageDeduplicationId =
      pf0.stringifyMessage msg1 :=
  pushDedupDeterministic pf0 "queue" tripleA tripleB msg1 msg1 rfl

/-- Claim C9: the routing key `getSqsQueueUrl` is a pure, deterministic
function of the triple's fields plus the fixed `.fifo` suffix: equal
triples give identical strings, and triples differing in at least one
field give different strings whenever the fields are dash-free (the
realistic alphabet — the join separator must not occur inside a field). -/
theorem routingKeyPureAndInjective (queueUrl : String) (t1 t2 : ExecutionTriple) :
    (t1 = t2 → getSqsQueueUrl queueUrl t1 = getSqsQueueUrl queueUrl t2) ∧
    (tripleDashFree t1 = true → tripleDashFree t2 = true → t1 ≠ t2 →
      getSqsQueueUrl queueUrl t1 ≠ getSqsQueueUrl queueUrl t2) := by
  constructor
  · intro h
    rw [h]
  · intro h1 h2 hne heq
    apply hne
    simp [tripleDashFree, Bool.and_eq_true] at h1 h2
    have hd := congrArg String.data heq
    rw [getSqsQueueUrl_data, getSqsQueueUrl_data] at hd
    have hd2 := List.append_cancel_left hd
    have hd3 : t1.instructionSet.data ++ '-' ::
        (t1.operatingSystem.data ++ '-' :: (t1.specialty.data ++ ".fifo".data)) =
        t2.instructionSet.data ++ '-' ::
        (t2.operatingSystem.data ++ '-' :: (t2.specialty.data ++ ".fifo".data)) := by
      injection hd2
    obtain ⟨hIeq, hrest⟩ := sepChainInj '-' _ _ _ _
      (dashFree_not_mem h1.1.1) (dashFree_not_mem h2.1.1) hd3
    obtain ⟨hOeq, hrest2⟩ := sepChainInj '-' _ _ _ _
      (dashFree_not_mem h1.1.2) (dashFree_not_mem h2.1.2) hrest
    have hPeq := List.append_cancel_right hrest2
    have e1 := stringDataInj hIeq
    have e2 := stringDataInj hOeq
    have e3 := stringDataInj hPeq
    cases t1
    cases t2
    simp_all

/-- Witness for C9: the routing key of a concrete triple equals itself,
and two triples differing in the instruction set route differently. -/
theorem routingKeyPureAndInjectiveWitness :
    getSqsQueueUrl "queue" tripleA = getSqsQueueUrl "queue" tripleA ∧
    getSqsQueueUrl "queue" tripleA ≠ getSqsQueueUrl "queue" tripleB :=
  ⟨(routingKeyPureAndInjective "queue" tripleA tripleA).1 rfl,
   (routingKeyPureAndInjective "queue" tripleA tripleB).2
     (by decide) (by decide) (by decide)⟩

/-- Counterexample to C1 as stated: with a cache miss for the popped
message's hash, the fetch/unpack/execute/notify chain raises, the
exception escapes `doExecutionWork` (there is no catch at the loop
boundary), and the next poll is never scheduled — the loop halts. -/
theorem workerLoopHaltsOnChainError :
    doExecutionWorkOnce (.ok (some msg1))
        (processChainWith pf0 false (.ok meta0) "12" "/tmp/ce-1" initialLocalEnvState) =
      .haltedWith { message := cacheWrapText (jsonStringifyError { message := cacheMissText }) } ∧
    doExecutionWorkOnce (.ok (some msg1))
        (processChainWith pf0 false (.ok meta0) "12" "/tmp/ce-1" initialLocalEnvState) ≠
      .scheduledNext steadyStatePollMs := by
  decide

/-- Claim C1 (amended): the worker loop schedules the next 500 ms poll if
and only if the iteration raises no error — `pop` succeeded and, when it
returned a message with a non-empty guid, the fetch/unpack/execute/notify
chain succeeded too; any error instead escapes `doExecutionWork`, so the
loop halts rather than polling again. -/
theorem workerLoopSchedulesIffNoError
    (popResult : Except JsError (Option RemoteExecutionMessage))
    (processChain : RemoteExecutionMessage → Except JsError Unit) :
    doExecutionWorkOnce popResult processChain = .scheduledNext steadyStatePollMs ↔
      ∃ optMsg, popResult = .ok optMsg ∧
        ∀ m, optMsg = some m → m.guid ≠ "" → processChain m = .ok () := by
  cases popResult with
  | error e => simp [doExecutionWorkOnce]
  | ok optMsg =>
    cases optMsg with
    | none =>
      simp [doExecutionWorkOnce]
    | some m =>
      by_cases hg : m.guid = ""
      · simp [doExecutionWorkOnce, hg]
      · cases hp : processChain m with
        | ok u =>
          cases u
          simp [doExecutionWorkOnce, hg, hp]
        | error e =>
          simp [doExecutionWorkOnce, hg, hp]

/-- Witness for C1 (amended), at a concrete successful iteration. -/
theorem workerLoopSchedulesIffNoErrorWitness :
    doExecutionWorkOnce (.ok (some msg1))
        (processChainWith pf0 true (.ok meta0) "12" "/tmp/ce-1" initialLocalEnvState) =
      .scheduledNext steadyStatePollMs ↔
      ∃ optMsg, (Except.ok (some msg1) : Except JsError (Option RemoteExecutionMessage)) = .ok optMsg ∧
        ∀ m, optMsg = some m → m.guid ≠ "" →
          processChainWith pf0 true (.ok meta0) "12" "/tmp/ce-1" initialLocalEnvState m = .ok () :=
  workerLoopSchedulesIffNoError (.ok (some msg1))
    (processChainWith pf0 true (.ok meta0) "12" "/tmp/ce-1" initialLocalEnvState)

/-- Claim C2, settled as a code bug: a cache miss and a metadata-parse
failure produce literally the same error. Both are caught by the same
`catch`, whose rethrown message serializes the inner error with
`JSON.stringify` — which yields `"\x7b\x7d"` for any `Error` — so a caller
cannot tell "never built" from "built but corrupt". -/
theorem cacheMissIndistinguishableFromParseFailure :
    loadPackageWithExecutable pf0 false "abc123" (.ok meta0) "12" "/tmp/ce-1" =
      loadPackageWithExecutable pf0 true "abc123"
        (.error { message := "Unexpected token h in JSON at position 0" }) "12" "/tmp/ce-1" ∧
    loadPackageWithExecutable pf0 false "abc123" (.ok meta0) "12" "/tmp/ce-1" =
      .error { message := cacheWrapText (jsonStringifyError { message := cacheMissText }) } := by
  decide

/-- Counterexample to C3 as stated: on a malformed body the popped message
is indeed deleted, but `pop` raises the parse error to its caller instead
of returning "no usable message". -/
theorem popRaisesOnMalformedBody :
    (pop (some [malformedBodyMessage]) jsonParseFail).deletedMessage = true ∧
    (pop (some [malformedBodyMessage]) jsonParseFail).result =
      .error { message := "Unexpected end of JSON input" } ∧
    (pop (some [malformedBodyMessage]) jsonParseFail).result ≠ .ok none := by
  decide

/-- Claim C3 (amended): for every popped message whose body fails to
deserialize, `pop` still deletes the message (the `finally` block runs on
its receipt handle), but the deserialization error propagates to the
caller as a raised exception rather than `pop` returning none. -/
theorem popDeletesButPropagatesParseError (b rh : String)
    (jsonParse : String → Except JsError RemoteExecutionMessage) (e : JsError)
    (h : jsonParse b = .error e) :
    pop (some [{ body := some b, receiptHandle := some rh }]) jsonParse =
      ⟨.error e, true⟩ := by
  simp [pop, h]

/-- Witness for C3 (amended), at the concrete malformed body. -/
theorem popDeletesButPropagatesParseErrorWitness :
    pop (some [{ body := some "\x7b", receiptHandle := some "rh-1" }]) jsonParseFail =
      ⟨.error { message := "Unexpected end of JSON input" }, true⟩ :=
  popDeletesButPropagatesParseError "\x7b" "rh-1" jsonParseFail
    { message := "Unexpected end of JSON input" } rfl

/-- Counterexample to C4 as stated: at a concrete request, the execution
options `execute` hands to `exec.sandbox` carry no `timeoutMs` and no
`maxOutput` at all — in particular not the configured
`binaryExecTimeoutMs` read by the constructor. -/
theorem executeOptionsLackLimits :
    (execute pf0 st1 params1).map
        (fun call => (call.execOptions.timeoutMs, call.execOptions.maxOutput)) =
      .ok (none, none) ∧
    (getDefaultExecOptions pf0 (some br1) params1).timeoutMs ≠
      some (mkLocalEnvConfig 2000 32768).timeoutMs := by
  decide

/-- Claim C4 (amended): `execute` launches the subprocess with the options
assembled by `getDefaultExecOptions`, which contain no `timeoutMs` and no
`maxOutput`; the configured timeout and output cap appear in the
execution options only on the `execBinary` path, which `execute` does not
take. -/
theorem executeOmitsConfiguredLimits (pf : PlatformFns) (st : LocalEnvState)
    (br : BuildResult) (params : ExecutionParams) (cfg : LocalEnvConfig)
    (ep : ExecutableExecutionOptions) (homeDir : String)
    (h : st.buildResult = some br) :
    execute pf st params =
      .ok { filepath := br.executableFilename
            args := effectiveArgs pf params
            execOptions := getDefaultExecOptions pf (some br) params } ∧
    (getDefaultExecOptions pf (some br) params).timeoutMs = none ∧
    (getDefaultExecOptions pf (some br) params).maxOutput = none ∧
    (execBinaryExecOptions cfg ep homeDir).timeoutMs = some cfg.timeoutMs ∧
    (execBinaryExecOptions cfg ep homeDir).maxOutput = some cfg.maxExecOutputSize := by
  refine ⟨by simp [execute, h], ?_, ?_, ?_, ?_⟩
  · cases hbp : br.preparedLdPaths <;> simp [getDefaultExecOptions, hbp]
  · cases hbp : br.preparedLdPaths <;> simp [getDefaultExecOptions, hbp]
  · by_cases hS : cfg.useSanitizerEnvHints <;> simp [execBinaryExecOptions, hS]
  · by_cases hS : cfg.useSanitizerEnvHints <;> simp [execBinaryExecOptions, hS]

/-- Witness for C4 (amended), at a concrete state, request and
configuration. -/
theorem executeOmitsConfiguredLimitsWitness :
    execute pf0 st1 params1 =
      .ok { filepath := br1.executableFilename
            args := effectiveArgs pf0 params1
            execOptions := getDefaultExecOptions pf0 (some br1) params1 } ∧
    (getDefaultExecOptions pf0 (some br1) params1).timeoutMs = none ∧
    (getDefaultExecOptions pf0 (some br1) params1).maxOutput = none ∧
    (execBinaryExecOptions cfg0 ep6 "/home/ce").timeoutMs = some cfg0.timeoutMs ∧
    (execBinaryExecOptions cfg0 ep6 "/home/ce").maxOutput = some cfg0.maxExecOutputSize :=
  executeOmitsConfiguredLimits pf0 st1 br1 params1 cfg0 ep6 "/home/ce" rfl

/-- Claim C5, settled as a code bug: the runtime-tool env loop
`env[(opt.name = opt.value)];` injects nothing, so at a request carrying
`FOO=bar` and a caller `PATH=/custom/bin` the assembled environment has no
`FOO` binding and its `PATH` is the bundle hint alone — the caller's
entries are lost rather than placed ahead of the hint. -/
theorem runtimeEnvEntriesNeverInjected :
    objGet (getDefaultExecOptions pf0 (some br1) params5).env "FOO" = none ∧
    objGet (getDefaultExecOptions pf0 (some br1) params5).env "PATH" = some "/opt/bin" := by
  decide

/-- Claim C6, settled as a code bug: `execBinary`'s `try` block returns
the `execBinaryMaybeWrapped` promise without `await`, so a subprocess
launch failure — here an error carrying exactly the truthy `code` and
`stderr` shape the catch handler converts — is not turned into a
`BasicExecutionResult`; it propagates as a rejection of `execBinary`
itself. -/
theorem execBinaryRejectionBypassesCatch :
    execBinary cfg0 (fun _ => .error launchError) ep6 "/home/ce" = .error launchError ∧
    jsTruthyOptInt launchError.code = true ∧
    jsTruthyOptStr launchError.stderr = true := by
  decide

/-- Claim C7: with sanitizer hints enabled, the environment assembled by
`execBinary` resolves every key to the caller's entry when one exists and
to the baseline diagnostic hint (`ASAN_OPTIONS`/`UBSAN_OPTIONS`/
`MSAN_OPTIONS`/`LSAN_OPTIONS` = `color=always`) otherwise: caller entries
win every collision, and a baseline hint appears only where no caller
entry exists. (`ep.env` models a JS object, whose keys are distinct.) -/
theorem sanitizerHintsCallerPrecedence (cfg : LocalEnvConfig)
    (ep : ExecutableExecutionOptions) (homeDir k : String)
    (hN : (ep.env.map Prod.fst).Nodup) (hS : cfg.useSanitizerEnvHints = true) :
    objGet (execBinaryExecOptions cfg ep homeDir).env k =
      match objGet ep.env k with
      | some v => some v
      | none => objGet sanitizerEnvHints k := by
  have henv : (execBinaryExecOptions cfg ep homeDir).env =
      objSpread sanitizerEnvHints ep.env := by
    simp [execBinaryExecOptions, hS]
  rw [henv]
  exact objGet_objSpread ep.env sanitizerEnvHints hN k

/-- Witness for C7: a caller override of `ASAN_OPTIONS` wins over the
baseline hint. -/
theorem sanitizerHintsCallerPrecedenceWitness :
    objGet (execBinaryExecOptions cfg0 ep7 "/home/ce").env "ASAN_OPTIONS" =
      match objGet ep7.env "ASAN_OPTIONS" with
      | some v => some v
      | none => objGet sanitizerEnvHints "ASAN_OPTIONS" :=
  sanitizerHintsCallerPrecedence cfg0 ep7 "/home/ce" "ASAN_OPTIONS" (by decide) rfl

/-- Claim C10: after `downloadExecutablePackage` completes successfully,
`buildResult` is set, so `execute`'s `assert(this.buildResult)` branch is
unreachable and `execute` hands the bundle's recorded executable (with the
effective arguments and default execution options) to `exec.sandbox`. -/
theorem executeRunsAfterDownload (pf : PlatformFns) (hit : Bool) (hash : String)
    (metaParse : Except JsError MetaJson) (elapsed : String)
    (st : LocalEnvState) (newDir : String) (st' : LocalEnvState)
    (params : ExecutionParams)
    (h : downloadExecutablePackage pf hit hash metaParse elapsed st newDir = .ok st') :
    st'.buildResult.isSome = true ∧
    execute pf st' params =
      .ok { filepath := (st'.buildResult.map BuildResult.executableFilename).getD ""
            args := effectiveArgs pf params
            execOptions := getDefaultExecOptions pf st'.buildResult params } := by
  cases hl : loadPackageWithExecutable pf hit hash metaParse elapsed newDir with
  | error e => simp [downloadExecutablePackage, hl] at h
  | ok br =>
    simp [downloadExecutablePackage, hl] at h
    rw [← h]
    simp [execute]

/-- Witness for C10, at a concrete successful download. -/
theorem executeRunsAfterDownloadWitness :
    st1.buildResult.isSome = true ∧
    execute pf0 st1 params1 =
      .ok { filepath := (st1.buildResult.map BuildResult.executableFilename).getD ""
            args := effectiveArgs pf0 params1
            execOptions := getDefaultExecOptions pf0 st1.buildResult params1 } :=
  executeRunsAfterDownload pf0 true "abc123" (.ok meta0) "12"
    initialLocalEnvState "/tmp/ce-1" st1 params1 (by decide)
